import Mathlib

/-
Verification development for the UniversalTracking web-analytics pipeline
(src/web-tracker.js). The JavaScript module is shallowly embedded below:

- An `Event` is the payload object built by `trackEvent`
  (`{ eventId: eventName, ...trackingData }`); the property values are
  modelled by their serialized JSON fragments, and the implicit
  `isTracked` flag (absent on construction, written only by the
  exception path of `sendData`) is an `Option Bool`.
- JavaScript object identity matters in `sendData` (success-path queue
  removal and the exception-path map use `Array.prototype.includes`,
  which compares objects by reference), so queue entries and batches
  carry an identity tag `oid`; fresh objects take fresh tags from a
  `nextId` counter, as allocation does.
- `localStorage` under the single key `UNSENT_TRACKING_EVENTS` is
  modelled by `Storage`: the access can throw, the key can be absent,
  the content can fail `JSON.parse`, or it parses to a `StoredContent`
  value (an array of events or any non-array JSON value).
- `console.warn`/`console.error` calls that the claims mention are
  recorded as `LogMsg` entries appended to a log; console output inside
  the storage helpers (`saveUnsentEvents`/`clearUnsentEvents` catch
  blocks) is not tracked, since no claim refers to it.
- The network is modelled by a `SinkOutcome` parameter: a 2xx response,
  a non-2xx response (`onreadystatechange` with bad status), a
  transport error (`onerror`), or `xhr.send` throwing synchronously.
-/

namespace WebTracker

/-- Model of the tracking payload object `{ eventId: eventName, ...trackingData }`.
Property values are represented by their serialized JSON fragments; `isTracked`
is `none` when the field is absent from the object. The host-supplied property
keys are taken to be distinct from the reserved names `eventId`/`isTracked`. -/
structure Event where
  eventId : String
  props : List (String × String)
  isTracked : Option Bool
deriving DecidableEq, Repr

/-- A JavaScript object reference holding an `Event`: `oid` is the object's
identity, which `Array.prototype.includes` compares by. -/
structure Obj where
  oid : Nat
  ev : Event
deriving DecidableEq, Repr

/-- Serialization of the property list portion of `JSON.stringify` on the
payload object, in insertion order. -/
def serializeProps : List (String × String) → String
  | [] => ""
  | (k, v) :: rest => (",\x22") ++ k ++ ("\x22:") ++ v ++ serializeProps rest

/-- `JSON.stringify` of an event object: `eventId` first (it is assigned first
in the object literal), then the tracking-data keys in insertion order, then
`isTracked` when present (the exception path of `sendData` appends it last via
`{ ...item, isTracked: false }`). -/
def serializeEvent (e : Event) : String :=
  ("\x7b\x22eventId\x22:\x22") ++ e.eventId ++ ("\x22") ++ serializeProps e.props ++
    (match e.isTracked with
     | none => ""
     | some b => (",\x22isTracked\x22:") ++ (if b then ("true") else ("false"))) ++
    ("\x7d")

/-- The JSON value obtained by parsing the stored content of the
`UNSENT_TRACKING_EVENTS` key (arrays of events are the well-formed case;
any other JSON value can be present if something else wrote the key). -/
inductive StoredContent where
  | jNull
  | jFalse
  | jTrue
  | jNum (n : Int)
  | jStr (str : String)
  | jObj
  | jArr (l : List Event)
deriving DecidableEq, Repr

/-- JavaScript truthiness of a parsed JSON value (`null`, `false`, `0` and the
empty string are falsy; objects and arrays are always truthy). -/
def truthy : StoredContent → Bool
  | .jNull => false
  | .jFalse => false
  | .jTrue => true
  | .jNum n => n != 0
  | .jStr str => str != ""
  | .jObj => true
  | .jArr _ => true

/-- State of the backing `localStorage` collaborator for the single key:
storage access itself may throw, the key may be absent, the content may fail
`JSON.parse`, or it parses to some JSON value. -/
inductive Storage where
  | throwing
  | absent
  | malformed
  | stored (c : StoredContent)
deriving DecidableEq, Repr

/-- Whether some event of `l` has the same `JSON.stringify` form as `e`
(the serialized-equality test used by `saveUnsentEvents` and
`clearUnsentEvents`). -/
def serMatches (l : List Event) (e : Event) : Bool :=
  l.any (fun x => serializeEvent x == serializeEvent e)

/-- The merge computed by `saveUnsentEvents`: the existing persisted sequence
followed by those incoming events whose serialized form is not already present
(the dedup set is computed once from `existing`, as in the source). -/
def mergeUnsent (existing events : List Event) : List Event :=
  existing ++ events.filter (fun e => ! serMatches existing e)

/-- `saveUnsentEvents(events)`: reads the key, computes the serialized-equality
set, appends the not-yet-present events and writes the merge back. Every
failure (storage access throwing, `JSON.parse` throwing, a truthy non-array
parse result making `existing.map` throw) is caught and leaves the storage
unchanged; a falsy parse result is replaced by `[]` via `|| []`. -/
def saveUnsentEvents (events : List Event) : Storage → Storage
  | .throwing => .throwing
  | .absent => .stored (.jArr (mergeUnsent [] events))
  | .malformed => .malformed
  | .stored c =>
    if truthy c then
      match c with
      | .jArr l => .stored (.jArr (mergeUnsent l events))
      | _ => .stored c
    else .stored (.jArr (mergeUnsent [] events))

/-- `getUnsentEvents()`: `JSON.parse(localStorage.getItem(KEY)) || []` under a
`try` that returns `[]` on any exception. An absent key parses to `null`
(falsy), so it also yields `[]`; a truthy parse result is returned as-is,
whatever it is. -/
def getUnsentEvents : Storage → StoredContent
  | .throwing => .jArr []
  | .absent => .jArr []
  | .malformed => .jArr []
  | .stored c => if truthy c then c else .jArr []

/-- `clearUnsentEvents(eventsToRemove)`: filters the loaded sequence by
serialized form and writes the remainder back. `getUnsentEvents` absorbs read
failures into `[]`, so absent/malformed/falsy contents lead to `[]` being
written; a truthy non-array value makes `.filter` throw (caught, no write),
and a throwing storage makes the final `setItem` throw (caught, no write). -/
def clearUnsentEvents (eventsToRemove : List Event) : Storage → Storage
  | .throwing => .throwing
  | .absent => .stored (.jArr [])
  | .malformed => .stored (.jArr [])
  | .stored c =>
    if truthy c then
      match c with
      | .jArr l => .stored (.jArr (l.filter (fun e => ! serMatches eventsToRemove e)))
      | _ => .stored c
    else .stored (.jArr [])

/-- The persisted sequence seen as a list of events: the result of
`getUnsentEvents` in the array case, `[]` otherwise. -/
def loadList (st : Storage) : List Event :=
  match getUnsentEvents st with
  | .jArr l => l
  | _ => []

/-- Console messages that the verified claims refer to. -/
inductive LogMsg where
  | notAuthorized
  | invalidEventName
  | trackerNotInit
  | trackerFnError
  | sendFailed
  | requestFailed
  | errorSendingData
  | retryLimitReached
deriving DecidableEq, Repr

/-- The module-level mutable state of the library plus the external
collaborators it reads: the registered tracker callback (modelled by the
predicate telling on which events it throws), the transmission lock
`isSending`, the data layer `window.analyticsQueue`, the `localStorage`
state, the auth cookies, the idle flags, an allocation counter for object
identities, the record of tracker-callback invocations, and the console log. -/
structure PState where
  trackerFn : Option (Event → Bool)
  isSending : Bool
  analyticsQueue : List Obj
  storage : Storage
  apiKey : Option String
  sessionId : Option String
  isUserIdle : Bool
  timerArmed : Bool
  nextId : Nat
  observed : List Event
  log : List LogMsg

/-- `isAuthorized()`: both auth cookies present (an empty cookie value cannot
be produced by `getCookieValue`, whose regex requires at least one character). -/
def isAuthorized (s : PState) : Bool :=
  s.apiKey.isSome && s.sessionId.isSome

/-- The `eventName` argument as the host may pass it: a string, or any
non-string value (all of which fail the `typeof` check). -/
inductive JsArg where
  | str (s : String)
  | nonString
deriving DecidableEq, Repr

/-- `trackEvent(eventName, trackingData)`: rejects (warn, no state change)
when unauthorized, when the name is falsy or not a string, or when no tracker
callback is registered; otherwise builds the payload, invokes the callback and
pushes the payload onto `window.analyticsQueue` — inside one `try`, so a
throwing callback skips the push. -/
def trackEvent (name : JsArg) (trackingData : List (String × String)) (s : PState) : PState :=
  if ! isAuthorized s then { s with log := s.log ++ [.notAuthorized] }
  else
    match name with
    | .nonString => { s with log := s.log ++ [.invalidEventName] }
    | .str n =>
      if n = "" then { s with log := s.log ++ [.invalidEventName] }
      else
        match s.trackerFn with
        | none => { s with log := s.log ++ [.trackerNotInit] }
        | some f =>
          let payload : Event := { eventId := n, props := trackingData, isTracked := none }
          if f payload then
            { s with observed := s.observed ++ [payload], log := s.log ++ [.trackerFnError] }
          else
            { s with observed := s.observed ++ [payload],
                     analyticsQueue := s.analyticsQueue ++ [⟨s.nextId, payload⟩],
                     nextId := s.nextId + 1 }

/-- Behaviour of the network sink for one `sendData` invocation: a 2xx
response, a non-2xx response, a transport error (`onerror`), or `xhr.send`
throwing synchronously while preparing the request. -/
inductive SinkOutcome where
  | success
  | httpFailure
  | netError
  | throwOnSend
deriving DecidableEq, Repr

/-- The exception path's
`analyticsQueue.map(item => data.includes(item) ? { ...item, isTracked: false } : item)`:
queue entries whose identity occurs in `data` are replaced by fresh objects
(new identities drawn from `base` upward) carrying `isTracked: false`; other
entries are kept as-is. Returns the new queue and the next free identity. -/
def markUntracked (data : List Obj) (queue : List Obj) (base : Nat) : List Obj × Nat :=
  match queue with
  | [] => ([], base)
  | item :: rest =>
    if data.any (fun d => d.oid == item.oid) then
      let r := markUntracked data rest (base + 1)
      (⟨base, { item.ev with isTracked := some false }⟩ :: r.1, r.2)
    else
      let r := markUntracked data rest base
      (item :: r.1, r.2)

/-- The synchronous part of `sendData(data)` up to and including `xhr.send`:
returns the state plus whether a network exchange was initiated. An empty
`data` or a held lock returns immediately; otherwise the lock is taken and,
if `xhr.send` throws, the `catch` block releases the lock, maps the queue
with `isTracked: false` copies of the batch's objects, persists the batch and
logs the error (no exchange was initiated). -/
def sendStart (sendThrows : Bool) (data : List Obj) (s : PState) : PState × Bool :=
  if data.isEmpty || s.isSending then (s, false)
  else if sendThrows then
    let r := markUntracked data s.analyticsQueue s.nextId
    ({ s with isSending := false,
              analyticsQueue := r.1,
              nextId := r.2,
              storage := saveUnsentEvents (data.map Obj.ev) s.storage,
              log := s.log ++ [.errorSendingData] }, false)
  else ({ s with isSending := true }, true)

/-- The `onreadystatechange` handler at `readyState === 4`: releases the lock;
on a 2xx status it removes the batch's objects from `analyticsQueue` (by
object identity, via `data.includes(item)`) and clears them from storage (by
serialized form); otherwise it persists the batch and logs the failure. -/
def resolveResponse (status2xx : Bool) (data : List Obj) (s : PState) : PState :=
  if status2xx then
    { s with isSending := false,
             analyticsQueue :=
               s.analyticsQueue.filter (fun item => ! data.any (fun d => d.oid == item.oid)),
             storage := clearUnsentEvents (data.map Obj.ev) s.storage }
  else
    { s with isSending := false,
             storage := saveUnsentEvents (data.map Obj.ev) s.storage,
             log := s.log ++ [.sendFailed] }

/-- The `onerror` handler: releases the lock, persists the batch, logs. -/
def resolveError (data : List Obj) (s : PState) : PState :=
  { s with isSending := false,
           storage := saveUnsentEvents (data.map Obj.ev) s.storage,
           log := s.log ++ [.requestFailed] }

/-- One complete `sendData(data)` invocation whose exchange (if any) resolves
with the given sink outcome before the next pipeline operation runs. Returns
the final state plus whether a network exchange was initiated. -/
def sendData (o : SinkOutcome) (data : List Obj) (s : PState) : PState × Bool :=
  match o with
  | .throwOnSend => sendStart true data s
  | .success =>
    let r := sendStart false data s
    (if r.2 then resolveResponse true data r.1 else r.1, r.2)
  | .httpFailure =>
    let r := sendStart false data s
    (if r.2 then resolveResponse false data r.1 else r.1, r.2)
  | .netError =>
    let r := sendStart false data s
    (if r.2 then resolveError data r.1 else r.1, r.2)

/-- JavaScript truthiness of the `isTracked` field (`!event.isTracked` keeps
absent and `false`, drops only `true`). -/
def trackedTruthy (e : Event) : Bool :=
  e.isTracked == some true

/-- The flush scheduler's selection `analyticsQueue.filter(e => !e.isTracked)`. -/
def selectUntransmitted (queue : List Obj) : List Obj :=
  queue.filter (fun o => ! trackedTruthy o.ev)

/-- The body of one `setInterval` tick of `startPeriodicSend`: if the queue is
non-empty, select the untransmitted events and, if any, hand them (the very
queue objects, via array spread) to `sendData`. -/
def periodicSendTick (o : SinkOutcome) (s : PState) : PState :=
  if s.analyticsQueue.isEmpty then s
  else
    let batch := selectUntransmitted s.analyticsQueue
    if batch.isEmpty then s else (sendData o batch s).1

/-- Fresh objects produced by `JSON.parse` for a list of stored events,
with identities drawn from `base` upward. -/
def mkFresh (base : Nat) : List Event → List Obj
  | [] => []
  | e :: rest => ⟨base, e⟩ :: mkFresh (base + 1) rest

/-- The recursive `attemptSend(attempt)` of `retryUnsentEvents`, driven by the
remaining fuel `retryCount - attempt`. Each level re-reads the store after the
send; a non-empty re-read waits `interval` and recurses. Returns the state,
the number of `sendData` invocations performed and the list of waits. The
retry-limit warning fires once, when the fuel runs out with events left. -/
def attemptSend (o : SinkOutcome) (interval : Nat) (fuel : Nat)
    (remaining : List Event) (s : PState) : PState × Nat × List Nat :=
  match fuel with
  | 0 =>
    if remaining.isEmpty then (s, 0, [])
    else ({ s with log := s.log ++ [.retryLimitReached] }, 0, [])
  | fuel' + 1 =>
    if remaining.isEmpty then (s, 0, [])
    else
      let data := mkFresh s.nextId remaining
      let s1 := (sendData o data { s with nextId := s.nextId + remaining.length }).1
      let remaining' := loadList s1.storage
      if remaining'.isEmpty then (s1, 1, [])
      else
        let r := attemptSend o interval fuel' remaining' s1
        (r.1, r.2.1 + 1, interval :: r.2.2)

/-- `retryUnsentEvents(retryCount, intervalInSeconds)`: loads the store,
returns immediately when it is empty, otherwise runs the attempt loop. (A
stored truthy non-array value has no `.length`, which is falsy, so those
states also return immediately; the loop itself only arises from array
states, which is all the pipeline writes.) -/
def retryUnsentEvents (o : SinkOutcome) (retryCount interval : Nat) (s : PState) :
    PState × Nat × List Nat :=
  let unsent := loadList s.storage
  if unsent.isEmpty then (s, 0, [])
  else attemptSend o interval retryCount unsent s

/-- `startIdleTimer()`: clears any pending timeout and arms a new one. -/
def startIdleTimer (s : PState) : PState :=
  { s with timerArmed := true }

/-- Payload of the `idl-start` idle event (timestamp and current path). -/
def idlStartEvent (t p : String) : Event :=
  { eventId := ("idl-start"), props := [(("time"), t), (("path"), p)], isTracked := none }

/-- Payload of the `idl-end` idle event (timestamp and current path). -/
def idlEndEvent (t p : String) : Event :=
  { eventId := ("idl-end"), props := [(("time"), t), (("path"), p)], isTracked := none }

/-- The idle timeout callback: marks the user idle and emits `idl-start`
through `trackEvent`; the timeout has just fired, so no timer is pending and
none is started. `t` and `p` are the current timestamp and location. -/
def idleTimerFire (t p : String) (s : PState) : PState :=
  trackEvent (.str ("idl-start")) [(("time"), t), (("path"), p)]
    { s with timerArmed := false, isUserIdle := true }

/-- `handleUserActivity()`: when idle, returns to active and emits `idl-end`
through `trackEvent`; in every case the idle timer is restarted. -/
def handleUserActivity (t p : String) (s : PState) : PState :=
  let s1 :=
    if s.isUserIdle then
      trackEvent (.str ("idl-end")) [(("time"), t), (("path"), p)]
        { s with isUserIdle := false }
    else s
  startIdleTimer s1

/-- `resetStorage()`: drops the persisted key and the auth cookies. -/
def resetStorage (s : PState) : PState :=
  { s with storage := .absent, apiKey := none, sessionId := none }

/-- The module state right after the IIFE runs: no tracker registered, lock
free, empty queue, no cookies, user active, no timer pending. -/
def initState : PState :=
  { trackerFn := none, isSending := false, analyticsQueue := [], storage := .absent,
    apiKey := none, sessionId := none, isUserIdle := false, timerArmed := false,
    nextId := 0, observed := [], log := [] }

/-- One scheduled turn of the pipeline: any public entry point, any timer or
network callback, registration of the tracker callback (`init`), setting the
auth cookies (`setAuthDetails`), and `resetStorage`. Batches handed to the
transmission controller are arbitrary, which covers every batch the schedulers
can form. -/
inductive Step : PState → PState → Prop
  | track {s} (name : JsArg) (data : List (String × String)) :
      Step s (trackEvent name data s)
  | sendStartStep {s} (thr : Bool) (data : List Obj) :
      Step s (sendStart thr data s).1
  | resolveResp {s} (ok : Bool) (data : List Obj) :
      Step s (resolveResponse ok data s)
  | resolveErr {s} (data : List Obj) :
      Step s (resolveError data s)
  | tick {s} (o : SinkOutcome) :
      Step s (periodicSendTick o s)
  | retryStep {s} (o : SinkOutcome) (rc iv : Nat) :
      Step s (retryUnsentEvents o rc iv s).1
  | activity {s} (t p : String) :
      Step s (handleUserActivity t p s)
  | timerFire {s} (t p : String) :
      Step s (idleTimerFire t p s)
  | register {s} (f : Event → Bool) :
      Step s { s with trackerFn := some f }
  | arm {s} :
      Step s (startIdleTimer s)
  | setAuth {s} (k sid : String) :
      Step s { s with apiKey := some k, sessionId := some sid }
  | reset {s} :
      Step s (resetStorage s)

/-- Pipeline states reachable from a process start (the durable storage may
hold anything left over from a previous run or written by another party). -/
inductive Reachable : PState → Prop
  | init (st : Storage) : Reachable { initState with storage := st }
  | step {s s'} : Reachable s → Step s s' → Reachable s'

/-- The queue invariant of claim C10: no queued event carries
`isTracked: true`. -/
def QueueOk (s : PState) : Prop :=
  ∀ o ∈ s.analyticsQueue, o.ev.isTracked ≠ some true

/-- Whether a parsed JSON value is an array. -/
def isArr : StoredContent → Bool
  | .jArr _ => true
  | _ => false

/-- Number of retry-exhaustion warnings in a console log. -/
def countRetryWarn (log : List LogMsg) : Nat :=
  log.count LogMsg.retryLimitReached

/-- Sample event for concrete witnesses. -/
def evA : Event :=
  { eventId := "a", props := [], isTracked := none }

/-- Second sample event for concrete witnesses. -/
def evB : Event :=
  { eventId := "b", props := [], isTracked := none }

/-- A host observer callback that never throws. -/
def obsOk : Event → Bool := fun _ => false

/-- A host observer callback that always throws. -/
def obsThrow : Event → Bool := fun _ => true

/-- An authorized, initialized state with a well-behaved observer. -/
def authState : PState :=
  { initState with
      apiKey := some "k", sessionId := some "sid", trackerFn := some obsOk }

/-- Concrete state for counterexamples: one queued event, empty store. -/
def oneQueuedState : PState :=
  { authState with
      analyticsQueue := [⟨0, evA⟩], storage := .stored (.jArr []), nextId := 1 }

/-- Concrete state: one queued event whose value is also persisted. -/
def queuedAndStoredState : PState :=
  { authState with
      analyticsQueue := [⟨0, evA⟩], storage := .stored (.jArr [evA]), nextId := 1 }

/-- Concrete state: two queued events, both persisted. -/
def twoQueuedState : PState :=
  { authState with
      analyticsQueue := [⟨0, evA⟩, ⟨1, evB⟩],
      storage := .stored (.jArr [evA, evB]), nextId := 2 }

section Lemmas

/-- Serialized matching unfolded to an existential. -/
theorem serMatches_iff {l : List Event} {e : Event} :
    serMatches l e = true ↔ ∃ x ∈ l, serializeEvent x = serializeEvent e := by
  simp [serMatches]

/-- After a merge, every event of the incoming batch has a serialized match in
the merged sequence. -/
theorem serMatches_mergeUnsent {l B : List Event} {e : Event} (he : e ∈ B) :
    serMatches (mergeUnsent l B) e = true := by
  by_cases h : serMatches l e = true
  · rcases serMatches_iff.mp h with ⟨x, hx, hser⟩
    exact serMatches_iff.mpr ⟨x, List.mem_append_left _ hx, hser⟩
  · have hf : serMatches l e = false := eq_false_of_ne_true h
    have hmem : e ∈ mergeUnsent l B := by
      unfold mergeUnsent
      exact List.mem_append_right _ (List.mem_filter.mpr ⟨he, by simp [hf]⟩)
    exact serMatches_iff.mpr ⟨e, hmem, rfl⟩

/-- Re-filtering a batch against its own merge leaves nothing. -/
theorem filter_serMatches_mergeUnsent (l B : List Event) :
    B.filter (fun e => ! serMatches (mergeUnsent l B) e) = [] := by
  rw [List.filter_eq_nil_iff]
  intro e he
  simp [serMatches_mergeUnsent he]

/-- Merging the same batch twice is the same as merging it once. -/
theorem mergeUnsent_idem (l B : List Event) :
    mergeUnsent (mergeUnsent l B) B = mergeUnsent l B := by
  have h := filter_serMatches_mergeUnsent l B
  calc mergeUnsent (mergeUnsent l B) B
      = mergeUnsent l B ++ B.filter (fun e => ! serMatches (mergeUnsent l B) e) := rfl
    _ = mergeUnsent l B ++ [] := by rw [h]
    _ = mergeUnsent l B := List.append_nil _

end Lemmas

/-- Claim C6: for every batch `B` and every starting state of the backing
storage, persisting `B` twice yields exactly the same Recovery Store as
persisting it once; and on a well-formed store `saveUnsentEvents` appends
exactly those events of `B` whose serialized form is not already present. -/
theorem saveUnsentEvents_idempotent (B : List Event) (st : Storage) :
    saveUnsentEvents B (saveUnsentEvents B st) = saveUnsentEvents B st ∧
    (∀ l, st = .stored (.jArr l) →
      saveUnsentEvents B st =
        .stored (.jArr (l ++ B.filter (fun e => ! serMatches l e))) ∧
      ∀ e ∈ B.filter (fun e => ! serMatches l e), e ∈ B ∧ serMatches l e = false) := by
  constructor
  · cases st with
    | throwing => rfl
    | malformed => rfl
    | absent =>
      show saveUnsentEvents B (.stored (.jArr (mergeUnsent [] B))) = _
      simp [saveUnsentEvents, truthy, mergeUnsent_idem]
    | stored c =>
      cases c with
      | jNull => simp [saveUnsentEvents, truthy, mergeUnsent_idem]
      | jFalse => simp [saveUnsentEvents, truthy, mergeUnsent_idem]
      | jTrue => simp [saveUnsentEvents, truthy]
      | jObj => simp [saveUnsentEvents, truthy]
      | jNum n =>
        by_cases hn : n = 0
        · subst hn; simp [saveUnsentEvents, truthy, mergeUnsent_idem]
        · simp [saveUnsentEvents, truthy, hn, mergeUnsent_idem]
      | jStr str =>
        by_cases hs : str = ""
        · subst hs; simp [saveUnsentEvents, truthy, mergeUnsent_idem]
        · simp [saveUnsentEvents, truthy, hs]
      | jArr l => simp [saveUnsentEvents, truthy, mergeUnsent_idem]
  · intro l hst
    subst hst
    refine ⟨by simp [saveUnsentEvents, truthy, mergeUnsent], ?_⟩
    intro e he
    have h := List.mem_filter.mp he
    exact ⟨h.1, by simpa using h.2⟩

/-- Witness for C6 at a concrete batch and store. -/
theorem saveUnsentEvents_idempotent_witness :
    saveUnsentEvents [evA] (saveUnsentEvents [evA] (.stored (.jArr []))) =
      saveUnsentEvents [evA] (.stored (.jArr [])) ∧
    saveUnsentEvents [evA] (.stored (.jArr [])) =
      .stored (.jArr ([] ++ [evA].filter (fun e => ! serMatches [] e))) ∧
    ∀ e ∈ [evA].filter (fun e => ! serMatches [] e), e ∈ [evA] ∧ serMatches [] e = false :=
  ⟨(saveUnsentEvents_idempotent [evA] (.stored (.jArr []))).1,
   ((saveUnsentEvents_idempotent [evA] (.stored (.jArr []))).2 [] rfl).1,
   ((saveUnsentEvents_idempotent [evA] (.stored (.jArr []))).2 [] rfl).2⟩

/-- Counterexample to claim C7 as stated: with the backing key holding the
JSON text of the number 5 (truthy, not an array), `getUnsentEvents` returns
that number itself — not an ordered sequence of events and not the empty
sequence. -/
theorem getUnsentEvents_nonArray_counterexample :
    getUnsentEvents (.stored (.jNum 5)) = .jNum 5 ∧
    isArr (getUnsentEvents (.stored (.jNum 5))) = false := by
  exact ⟨by decide, by decide⟩

/-- Claim C7 as amended: `getUnsentEvents` is total (every failure is caught,
nothing reaches the caller) and returns the empty array whenever storage
access throws, the key is absent, the content fails to parse, or the parsed
value is falsy; a truthy parsed value is returned as-is, so a truthy
non-array stored value is passed through rather than replaced by the empty
sequence. -/
theorem getUnsentEvents_total_amended :
    (∀ st : Storage, getUnsentEvents st = .jArr [] ∨
      ∃ c, st = .stored c ∧ truthy c = true ∧ getUnsentEvents st = c) ∧
    getUnsentEvents .throwing = .jArr [] ∧
    getUnsentEvents .absent = .jArr [] ∧
    getUnsentEvents .malformed = .jArr [] ∧
    getUnsentEvents (.stored .jNull) = .jArr [] := by
  refine ⟨?_, rfl, rfl, rfl, rfl⟩
  intro st
  cases st with
  | throwing => exact Or.inl rfl
  | absent => exact Or.inl rfl
  | malformed => exact Or.inl rfl
  | stored c =>
    by_cases h : truthy c = true
    · exact Or.inr ⟨c, rfl, h, by simp [getUnsentEvents, h]⟩
    · exact Or.inl (by simp [getUnsentEvents, eq_false_of_ne_true h])

/-- Claim C1: a `sendData` call that finds the Transmission Lock held returns
immediately with no effect on any state and initiates no exchange; and of two
calls issued before either resolves, the first initiates the one exchange and
the second is a no-op. -/
theorem sendData_single_flight :
    (∀ (o : SinkOutcome) (data : List Obj) (s : PState),
        s.isSending = true → sendData o data s = (s, false)) ∧
    (∀ (d1 d2 : List Obj) (s : PState),
        s.isSending = false → d1 ≠ [] →
        (sendStart false d1 s).2 = true ∧
        sendStart false d2 (sendStart false d1 s).1 = ((sendStart false d1 s).1, false)) := by
  constructor
  · intro o data s h
    cases o <;> simp [sendData, sendStart, h]
  · intro d1 d2 s h h1
    have hne : d1.isEmpty = false := by
      simpa using h1
    simp [sendStart, h, hne]

/-- Witness for C1 at a concrete state and batch. -/
theorem sendData_single_flight_witness :
    sendData .success [⟨0, evA⟩] { authState with isSending := true } =
      ({ authState with isSending := true }, false) ∧
    (sendStart false [⟨0, evA⟩] authState).2 = true ∧
    sendStart false [⟨1, evB⟩] (sendStart false [⟨0, evA⟩] authState).1 =
      ((sendStart false [⟨0, evA⟩] authState).1, false) :=
  ⟨sendData_single_flight.1 .success [⟨0, evA⟩] { authState with isSending := true } rfl,
   (sendData_single_flight.2 [⟨0, evA⟩] [⟨1, evB⟩] authState rfl (by simp)).1,
   (sendData_single_flight.2 [⟨0, evA⟩] [⟨1, evB⟩] authState rfl (by simp)).2⟩

/-- Claim C9: whenever `trackEvent` is called with an empty or non-string
event name, or with no registered tracker callback, or by an unauthorized
caller, the call only appends one console message: the queue, the storage and
every other component of the pipeline state are unchanged, and the function
returns normally (nothing is raised to the host). -/
theorem trackEvent_reject_noop :
    ∀ (name : JsArg) (data : List (String × String)) (s : PState),
      (isAuthorized s = false ∨ name = .nonString ∨ name = .str "" ∨ s.trackerFn = none) →
      ∃ m, trackEvent name data s = { s with log := s.log ++ [m] } := by
  intro name data s h
  by_cases ha : isAuthorized s = true
  · rcases h with h | h | h | h
    · rw [ha] at h; cases h
    · subst h; exact ⟨.invalidEventName, by simp [trackEvent, ha]⟩
    · subst h; exact ⟨.invalidEventName, by simp [trackEvent, ha]⟩
    · cases name with
      | nonString => exact ⟨.invalidEventName, by simp [trackEvent, ha]⟩
      | str n =>
        by_cases hn : n = ""
        · subst hn; exact ⟨.invalidEventName, by simp [trackEvent, ha]⟩
        · exact ⟨.trackerNotInit, by simp [trackEvent, ha, hn, h]⟩
  · have ha' : isAuthorized s = false := eq_false_of_ne_true ha
    exact ⟨.notAuthorized, by simp [trackEvent, ha']⟩

/-- Witness for C9: an unauthorized caller and an empty event name. -/
theorem trackEvent_reject_noop_witness :
    (∃ m, trackEvent (.str "x") [] initState = { initState with log := initState.log ++ [m] }) ∧
    (∃ m, trackEvent (.str "") [] authState = { authState with log := authState.log ++ [m] }) :=
  ⟨trackEvent_reject_noop (.str "x") [] initState (Or.inl rfl),
   trackEvent_reject_noop (.str "") [] authState (Or.inr (Or.inr (Or.inl rfl)))⟩

/-- Claim C2, evaluated at its failing input: in an authorized, initialized
state whose observer always throws, `trackEvent` does invoke the observer with
the constructed event and reports the error, but the event is NOT appended to
`analyticsQueue` — the push sits after the observer call inside the same
`try`, so the thrown exception skips it and delivery is broken. -/
theorem trackEvent_observer_throw_drops_event :
    (trackEvent (.str "a") [] { authState with trackerFn := some obsThrow }).analyticsQueue = [] ∧
    (trackEvent (.str "a") [] { authState with trackerFn := some obsThrow }).observed = [evA] ∧
    (trackEvent (.str "a") [] { authState with trackerFn := some obsThrow }).log =
      [.trackerFnError] := by
  exact ⟨rfl, rfl, rfl⟩

section MarkLemmas

/-- Every queue entry whose identity is in the batch reappears after the
exception-path map as a copy carrying `isTracked: false`. -/
theorem markUntracked_mem (data queue : List Obj) (base : Nat) (ob : Obj)
    (hq : ob ∈ queue) (hd : data.any (fun d => d.oid == ob.oid) = true) :
    ∃ it ∈ (markUntracked data queue base).1,
      it.ev = { ob.ev with isTracked := some false } := by
  induction queue generalizing base with
  | nil => cases hq
  | cons item rest ih =>
    rcases List.mem_cons.mp hq with h | h
    · subst h
      refine ⟨⟨base, { ob.ev with isTracked := some false }⟩, ?_, rfl⟩
      simp [markUntracked, hd]
    · cases hc : data.any (fun d => d.oid == item.oid) with
      | true =>
        obtain ⟨it, hit, heq⟩ := ih (base + 1) h
        refine ⟨it, ?_, heq⟩
        simp only [markUntracked, hc, if_true, List.mem_cons]
        exact Or.inr hit
      | false =>
        obtain ⟨it, hit, heq⟩ := ih base h
        refine ⟨it, ?_, heq⟩
        simp only [markUntracked, hc, Bool.false_eq_true, if_false, List.mem_cons]
        exact Or.inr hit

/-- `saveUnsentEvents` on a well-formed store is the dedup merge. -/
theorem saveUnsentEvents_jArr (events l : List Event) :
    saveUnsentEvents events (.stored (.jArr l)) = .stored (.jArr (mergeUnsent l events)) := by
  simp [saveUnsentEvents, truthy]

/-- `clearUnsentEvents` on a well-formed store filters by serialized form. -/
theorem clearUnsentEvents_jArr (eventsToRemove l : List Event) :
    clearUnsentEvents eventsToRemove (.stored (.jArr l)) =
      .stored (.jArr (l.filter (fun e => ! serMatches eventsToRemove e))) := by
  simp [clearUnsentEvents, truthy]

/-- A `sendStart` that is not locked, has a non-empty batch and does not throw
just takes the lock and initiates the exchange. -/
theorem sendStart_noThrow (data : List Obj) (s : PState)
    (hlock : s.isSending = false) (hne : data ≠ []) :
    sendStart false data s = ({ s with isSending := true }, true) := by
  have hemp : data.isEmpty = false := by simpa using hne
  simp [sendStart, hlock, hemp]

end MarkLemmas

/-- Counterexample to claim C3 as stated: with the one-event batch `[evA]`
drawn from the queue and `xhr.send` throwing while preparing the request, the
batch is persisted and the lock released, but the queue's copy of the event is
replaced by one carrying `isTracked: false` — no queue entry with the event's
original serialized form remains, so the contents did not survive unchanged. -/
theorem sendData_throw_changes_queue_content :
    ((sendData .throwOnSend [⟨0, evA⟩] oneQueuedState).1.analyticsQueue.any
      (fun o => serializeEvent o.ev == serializeEvent evA)) = false ∧
    (sendData .throwOnSend [⟨0, evA⟩] oneQueuedState).1.analyticsQueue =
      [⟨1, { evA with isTracked := some false }⟩] := by
  exact ⟨by decide, by decide⟩

/-- Claim C3 as amended: against a failing sink, `sendData` persists the batch
unchanged into the Recovery Store (idempotent merge) and releases the lock in
every failure mode; on a non-success response or transport error the queue is
untouched (so the batch remains in it unchanged), while on an exception thrown
while preparing the request each batch member's queue entry remains but is
replaced by a copy carrying `isTracked: false`, which changes its serialized
content. -/
theorem sendData_failure_recovery (o : SinkOutcome) (data : List Obj) (s : PState)
    (l : List Event) (hlock : s.isSending = false) (hne : data ≠ [])
    (hst : s.storage = .stored (.jArr l)) :
    ((o = .httpFailure ∨ o = .netError) →
      (sendData o data s).1.analyticsQueue = s.analyticsQueue ∧
      (sendData o data s).1.storage = .stored (.jArr (mergeUnsent l (data.map Obj.ev))) ∧
      (∀ ob ∈ data, serMatches (mergeUnsent l (data.map Obj.ev)) ob.ev = true) ∧
      (sendData o data s).1.isSending = false) ∧
    ((sendData .throwOnSend data s).1.storage =
        .stored (.jArr (mergeUnsent l (data.map Obj.ev))) ∧
      (∀ ob ∈ data, serMatches (mergeUnsent l (data.map Obj.ev)) ob.ev = true) ∧
      (sendData .throwOnSend data s).1.isSending = false ∧
      (∀ ob ∈ data, ob ∈ s.analyticsQueue →
        ∃ it ∈ (sendData .throwOnSend data s).1.analyticsQueue,
          it.ev = { ob.ev with isTracked := some false })) := by
  have hmatch : ∀ ob ∈ data, serMatches (mergeUnsent l (data.map Obj.ev)) ob.ev = true := by
    intro ob hob
    exact serMatches_mergeUnsent (List.mem_map_of_mem Obj.ev hob)
  have hemp : data.isEmpty = false := by simpa using hne
  constructor
  · rintro (rfl | rfl)
    · refine ⟨?_, ?_, hmatch, ?_⟩
      · simp only [sendData, sendStart_noThrow data s hlock hne]
        simp [resolveResponse]
      · simp only [sendData, sendStart_noThrow data s hlock hne]
        simp [resolveResponse, hst, saveUnsentEvents_jArr]
      · simp only [sendData, sendStart_noThrow data s hlock hne]
        simp [resolveResponse]
    · refine ⟨?_, ?_, hmatch, ?_⟩
      · simp only [sendData, sendStart_noThrow data s hlock hne]
        simp [resolveError]
      · simp only [sendData, sendStart_noThrow data s hlock hne]
        simp [resolveError, hst, saveUnsentEvents_jArr]
      · simp only [sendData, sendStart_noThrow data s hlock hne]
        simp [resolveError]
  · refine ⟨?_, hmatch, ?_, ?_⟩
    · simp [sendData, sendStart, hlock, hemp, hst, saveUnsentEvents_jArr]
    · simp [sendData, sendStart, hlock, hemp]
    · intro ob hob hqm
      have hd : data.any (fun d => d.oid == ob.oid) = true :=
        List.any_eq_true.mpr ⟨ob, hob, by simp⟩
      obtain ⟨it, hit, heq⟩ := markUntracked_mem data s.analyticsQueue s.nextId ob hqm hd
      refine ⟨it, ?_, heq⟩
      simpa [sendData, sendStart, hlock, hemp] using hit

/-- Witness for C3 at a concrete failing send. -/
theorem sendData_failure_recovery_witness :
    (sendData .httpFailure [⟨0, evA⟩] oneQueuedState).1.analyticsQueue =
      oneQueuedState.analyticsQueue ∧
    (sendData .httpFailure [⟨0, evA⟩] oneQueuedState).1.storage =
      .stored (.jArr (mergeUnsent [] ([Obj.mk 0 evA].map Obj.ev))) ∧
    (∀ ob ∈ [Obj.mk 0 evA],
      serMatches (mergeUnsent [] ([Obj.mk 0 evA].map Obj.ev)) ob.ev = true) ∧
    (sendData .httpFailure [⟨0, evA⟩] oneQueuedState).1.isSending = false :=
  (sendData_failure_recovery .httpFailure [⟨0, evA⟩] oneQueuedState []
      rfl (by simp) rfl).1 (Or.inl rfl)

/-- Counterexample to claim C4 as stated: a successful send of a batch whose
object is serialized-equal to a queue entry but not identical to it (as every
batch reloaded from the Recovery Store is) removes the entry from the store
yet leaves the queue entry in place — queue removal matches by object
identity, not serialized form. -/
theorem sendData_success_identity_counterexample :
    ((sendData .success [⟨5, evA⟩] queuedAndStoredState).1.analyticsQueue.any
      (fun o => serializeEvent o.ev == serializeEvent evA)) = true ∧
    loadList ((sendData .success [⟨5, evA⟩] queuedAndStoredState).1.storage) = [] := by
  exact ⟨by decide, by decide⟩

/-- Claim C4 as amended: a successful send removes from the Recovery Store
exactly the entries whose serialized form matches a batch member (others stay,
in order), and removes from the queue exactly the entries whose object
identity occurs in the batch (others stay, in order) — so queue entries merely
serialized-equal to a batch member, such as those behind a store-reloaded
batch, remain queued. -/
theorem sendData_success_cleanup (data : List Obj) (s : PState) (l : List Event)
    (hlock : s.isSending = false) (hne : data ≠ []) (hst : s.storage = .stored (.jArr l)) :
    (sendData .success data s).1.storage =
      .stored (.jArr (l.filter (fun e => ! serMatches (data.map Obj.ev) e))) ∧
    (sendData .success data s).1.analyticsQueue =
      s.analyticsQueue.filter (fun item => ! data.any (fun d => d.oid == item.oid)) ∧
    (sendData .success data s).1.isSending = false ∧
    (∀ e ∈ l, serMatches (data.map Obj.ev) e = true →
      e ∉ loadList ((sendData .success data s).1.storage)) ∧
    (∀ e ∈ l, serMatches (data.map Obj.ev) e = false →
      e ∈ loadList ((sendData .success data s).1.storage)) ∧
    (∀ ob ∈ s.analyticsQueue, ob ∈ data →
      ob ∉ (sendData .success data s).1.analyticsQueue) := by
  have hq : (sendData .success data s).1.storage =
      .stored (.jArr (l.filter (fun e => ! serMatches (data.map Obj.ev) e))) := by
    simp only [sendData, sendStart_noThrow data s hlock hne]
    simp [resolveResponse, hst, clearUnsentEvents_jArr]
  refine ⟨hq, ?_, ?_, ?_, ?_, ?_⟩
  · simp only [sendData, sendStart_noThrow data s hlock hne]
    simp [resolveResponse]
  · simp only [sendData, sendStart_noThrow data s hlock hne]
    simp [resolveResponse]
  · intro e hel hser
    rw [hq]
    simp [loadList, getUnsentEvents, truthy, List.mem_filter, hser]
  · intro e hel hser
    rw [hq]
    simp [loadList, getUnsentEvents, truthy, List.mem_filter, hser, hel]
  · intro ob hob hdata
    have hany : data.any (fun d => d.oid == ob.oid) = true :=
      List.any_eq_true.mpr ⟨ob, hdata, by simp⟩
    simp only [sendData, sendStart_noThrow data s hlock hne]
    simp [resolveResponse, List.mem_filter, hany]

/-- Witness for C4 at a concrete successful send. -/
theorem sendData_success_cleanup_witness :
    (sendData .success [⟨0, evA⟩] twoQueuedState).1.storage =
      .stored (.jArr ([evA, evB].filter
        (fun e => ! serMatches ([Obj.mk 0 evA].map Obj.ev) e))) ∧
    (sendData .success [⟨0, evA⟩] twoQueuedState).1.analyticsQueue =
      twoQueuedState.analyticsQueue.filter
        (fun item => ! [Obj.mk 0 evA].any (fun d => d.oid == item.oid)) ∧
    (sendData .success [⟨0, evA⟩] twoQueuedState).1.isSending = false :=
  ⟨(sendData_success_cleanup [⟨0, evA⟩] twoQueuedState [evA, evB] rfl (by simp) rfl).1,
   (sendData_success_cleanup [⟨0, evA⟩] twoQueuedState [evA, evB] rfl (by simp) rfl).2.1,
   (sendData_success_cleanup [⟨0, evA⟩] twoQueuedState [evA, evB] rfl (by simp) rfl).2.2.1⟩

/-- Claim C8: under an authorized caller with a registered, non-throwing
observer — the idle monitor enqueues through `trackEvent`, so its events are
only accepted then — (a) the idle timer firing while Active transitions to
Idle and enqueues exactly one `idl-start` event carrying the timestamp and
current path, without re-arming the timer; (b) an interaction signal while
Idle transitions to Active, enqueues exactly one `idl-end` event and restarts
the timer; (c) an interaction signal while Active only restarts the timer —
no transition, no event. -/
theorem idle_state_machine (t p : String) (f : Event → Bool) (s : PState)
    (hauth : isAuthorized s = true) (hfn : s.trackerFn = some f)
    (hstart : f (idlStartEvent t p) = false) (hend : f (idlEndEvent t p) = false) :
    (s.isUserIdle = false → s.timerArmed = true →
      idleTimerFire t p s =
        { s with timerArmed := false, isUserIdle := true,
                 observed := s.observed ++ [idlStartEvent t p],
                 analyticsQueue := s.analyticsQueue ++ [⟨s.nextId, idlStartEvent t p⟩],
                 nextId := s.nextId + 1 }) ∧
    (s.isUserIdle = true →
      handleUserActivity t p s =
        { s with isUserIdle := false, timerArmed := true,
                 observed := s.observed ++ [idlEndEvent t p],
                 analyticsQueue := s.analyticsQueue ++ [⟨s.nextId, idlEndEvent t p⟩],
                 nextId := s.nextId + 1 }) ∧
    (s.isUserIdle = false → handleUserActivity t p s = { s with timerArmed := true }) := by
  have hks : s.apiKey.isSome = true ∧ s.sessionId.isSome = true := by
    simpa [isAuthorized] using hauth
  have hstart' :
      f { eventId := "idl-start", props := [("time", t), ("path", p)], isTracked := none } =
        false := hstart
  have hend' :
      f { eventId := "idl-end", props := [("time", t), ("path", p)], isTracked := none } =
        false := hend
  refine ⟨?_, ?_, ?_⟩
  · intro hidle harm
    simp [idleTimerFire, trackEvent, isAuthorized, hks.1, hks.2, hfn,
      idlStartEvent, hstart']
  · intro hidle
    simp [handleUserActivity, hidle, startIdleTimer, trackEvent, isAuthorized,
      hks.1, hks.2, hfn, idlEndEvent, hend']
  · intro hidle
    simp [handleUserActivity, hidle, startIdleTimer]

/-- Witness for C8 at concrete states of both machine modes. -/
theorem idle_state_machine_witness :
    idleTimerFire "t0" "p0" (startIdleTimer authState) =
      { startIdleTimer authState with
          timerArmed := false, isUserIdle := true,
          observed := (startIdleTimer authState).observed ++ [idlStartEvent "t0" "p0"],
          analyticsQueue := (startIdleTimer authState).analyticsQueue ++
            [⟨(startIdleTimer authState).nextId, idlStartEvent "t0" "p0"⟩],
          nextId := (startIdleTimer authState).nextId + 1 } ∧
    handleUserActivity "t0" "p0" { authState with isUserIdle := true } =
      { { authState with isUserIdle := true } with
          isUserIdle := false, timerArmed := true,
          observed := ({ authState with isUserIdle := true } : PState).observed ++
            [idlEndEvent "t0" "p0"],
          analyticsQueue := ({ authState with isUserIdle := true } : PState).analyticsQueue ++
            [⟨({ authState with isUserIdle := true } : PState).nextId, idlEndEvent "t0" "p0"⟩],
          nextId := ({ authState with isUserIdle := true } : PState).nextId + 1 } ∧
    handleUserActivity "t0" "p0" authState = { authState with timerArmed := true } :=
  ⟨(idle_state_machine "t0" "p0" obsOk (startIdleTimer authState)
      rfl rfl rfl rfl).1 rfl rfl,
   (idle_state_machine "t0" "p0" obsOk { authState with isUserIdle := true }
      rfl rfl rfl rfl).2.1 rfl,
   (idle_state_machine "t0" "p0" obsOk authState rfl rfl rfl rfl).2.2 rfl⟩

section RetryLemmas

/-- Loading a well-formed store yields its event list. -/
theorem loadList_jArr (l : List Event) : loadList (.stored (.jArr l)) = l := by
  simp [loadList, getUnsentEvents, truthy]

/-- The freshly parsed objects carry exactly the stored events. -/
theorem mkFresh_map_ev (base : Nat) (l : List Event) : (mkFresh base l).map Obj.ev = l := by
  induction l generalizing base with
  | nil => rfl
  | cons e rest ih => simp [mkFresh, ih]

/-- Parsing a non-empty stored list yields a non-empty batch. -/
theorem mkFresh_ne_nil (base : Nat) (l : List Event) (h : l ≠ []) :
    mkFresh base l ≠ [] := by
  cases l with
  | nil => exact absurd rfl h
  | cons e rest => simp [mkFresh]

/-- The merge of a non-empty existing store stays non-empty, and keeps the
existing events as a sublist. -/
theorem mergeUnsent_sublist (l B : List Event) : List.Sublist l (mergeUnsent l B) := by
  unfold mergeUnsent
  exact List.sublist_append_left _ _

/-- A merge with a non-empty existing sequence is non-empty. -/
theorem mergeUnsent_ne_nil (l B : List Event) (h : l ≠ []) : mergeUnsent l B ≠ [] := by
  unfold mergeUnsent
  intro hc
  exact h (List.append_eq_nil.mp hc).1

/-- Any failing `sendData` (non-2xx, transport error or send-throw) persists
the batch, releases the lock and emits no retry-exhaustion warning. -/
theorem sendData_fail_state (o : SinkOutcome) (ho : o ≠ .success) (data : List Obj)
    (s : PState) (hne : data ≠ []) (hlock : s.isSending = false) :
    (sendData o data s).1.storage = saveUnsentEvents (data.map Obj.ev) s.storage ∧
    (sendData o data s).1.isSending = false ∧
    countRetryWarn (sendData o data s).1.log = countRetryWarn s.log := by
  have hemp : data.isEmpty = false := by simpa using hne
  cases o with
  | success => exact absurd rfl ho
  | httpFailure =>
    simp only [sendData, sendStart_noThrow data s hlock hne]
    simp [resolveResponse, countRetryWarn, List.count_append]
  | netError =>
    simp only [sendData, sendStart_noThrow data s hlock hne]
    simp [resolveError, countRetryWarn, List.count_append]
  | throwOnSend =>
    simp [sendData, sendStart, hlock, hemp, countRetryWarn, List.count_append]

/-- Against an always-failing sink and a non-empty well-formed store, the
retry loop performs one `sendData` per unit of fuel, waits `interval` after
each of them, ends with the store still non-empty (the original events still
present, in order), warns exactly once about exhaustion and leaves the lock
free. -/
theorem attemptSend_allFail (o : SinkOutcome) (ho : o ≠ .success) (interval : Nat) :
    ∀ (fuel : Nat) (remaining : List Event) (s : PState) (l : List Event),
      s.storage = .stored (.jArr l) → l ≠ [] → remaining ≠ [] → s.isSending = false →
      (attemptSend o interval fuel remaining s).2.1 = fuel ∧
      (attemptSend o interval fuel remaining s).2.2 = List.replicate fuel interval ∧
      (∃ l2, (attemptSend o interval fuel remaining s).1.storage = .stored (.jArr l2) ∧
        l2 ≠ [] ∧ List.Sublist l l2) ∧
      countRetryWarn (attemptSend o interval fuel remaining s).1.log =
        countRetryWarn s.log + 1 ∧
      (attemptSend o interval fuel remaining s).1.isSending = false := by
  intro fuel
  induction fuel with
  | zero =>
    intro remaining s l hst hl hr hlock
    have hremp : remaining.isEmpty = false := by simpa using hr
    refine ⟨?_, ?_, ⟨l, ?_, hl, List.Sublist.refl l⟩, ?_, ?_⟩ <;>
      simp [attemptSend, hremp, hst, hlock, countRetryWarn, List.count_append]
  | succ fuel ih =>
    intro remaining s l hst hl hr hlock
    have hremp : remaining.isEmpty = false := by simpa using hr
    have hlock' : ({ s with nextId := s.nextId + remaining.length } : PState).isSending =
        false := hlock
    have hdata : mkFresh s.nextId remaining ≠ [] := mkFresh_ne_nil _ _ hr
    obtain ⟨hsto, hsend, hcount⟩ :=
      sendData_fail_state o ho (mkFresh s.nextId remaining)
        { s with nextId := s.nextId + remaining.length } hdata hlock'
    have hsto' : (sendData o (mkFresh s.nextId remaining)
        { s with nextId := s.nextId + remaining.length }).1.storage =
        .stored (.jArr (mergeUnsent l remaining)) := by
      rw [hsto, mkFresh_map_ev]
      have hst' : ({ s with nextId := s.nextId + remaining.length } : PState).storage =
          .stored (.jArr l) := hst
      rw [hst', saveUnsentEvents_jArr]
    have hload : loadList (sendData o (mkFresh s.nextId remaining)
        { s with nextId := s.nextId + remaining.length }).1.storage =
        mergeUnsent l remaining := by
      rw [hsto', loadList_jArr]
    have hmne : mergeUnsent l remaining ≠ [] := mergeUnsent_ne_nil l remaining hl
    have hmemp : (mergeUnsent l remaining).isEmpty = false := by simpa using hmne
    obtain ⟨ha1, ha2, ⟨l2, hl2, hl2ne, hl2sub⟩, hc1, hs1⟩ :=
      ih (mergeUnsent l remaining)
        (sendData o (mkFresh s.nextId remaining)
          { s with nextId := s.nextId + remaining.length }).1
        (mergeUnsent l remaining) hsto' hmne hmne hsend
    simp only [attemptSend, hremp, Bool.false_eq_true, if_false, hload, hmemp]
    refine ⟨by rw [ha1], by rw [ha2, List.replicate_succ], ⟨l2, hl2, hl2ne, ?_⟩, ?_, hs1⟩
    · exact (mergeUnsent_sublist l remaining).trans hl2sub
    · rw [hc1, hcount]

end RetryLemmas

/-- Claim C5: `retryUnsentEvents(maxAttempts, interval)` with a non-empty
well-formed Recovery Store and a sink that always fails performs exactly
`maxAttempts` transmission attempts, each followed by an `interval` wait (so
consecutive attempts are `interval` apart; the loop also waits once more after
the final attempt before observing the exhaustion), reports the exhaustion
exactly once, and leaves the failed events persisted — the original store
contents survive as a sublist of the final store. With an empty store it
returns immediately, doing nothing. -/
theorem retryUnsentEvents_bound (o : SinkOutcome) (ho : o ≠ .success)
    (rc interval : Nat) (s : PState) (l : List Event)
    (hst : s.storage = .stored (.jArr l)) (hlock : s.isSending = false) :
    (l ≠ [] →
      (retryUnsentEvents o rc interval s).2.1 = rc ∧
      (retryUnsentEvents o rc interval s).2.2 = List.replicate rc interval ∧
      (∃ l2, (retryUnsentEvents o rc interval s).1.storage = .stored (.jArr l2) ∧
        l2 ≠ [] ∧ List.Sublist l l2) ∧
      countRetryWarn (retryUnsentEvents o rc interval s).1.log =
        countRetryWarn s.log + 1) ∧
    (l = [] → retryUnsentEvents o rc interval s = (s, 0, [])) := by
  have hld : loadList s.storage = l := by rw [hst]; exact loadList_jArr l
  constructor
  · intro hl
    have hemp : (loadList s.storage).isEmpty = false := by rw [hld]; simpa using hl
    obtain ⟨h1, h2, h3, h4, _⟩ :=
      attemptSend_allFail o ho interval rc (loadList s.storage) s l hst hl
        (by rw [hld]; exact hl) hlock
    simp only [retryUnsentEvents, hemp, Bool.false_eq_true, if_false]
    exact ⟨h1, h2, h3, h4⟩
  · intro hl
    subst hl
    have hemp : (loadList s.storage).isEmpty = true := by rw [hld]; rfl
    simp [retryUnsentEvents, hemp]

/-- Witness for C5 at a concrete always-failing retry run and a concrete
empty-store run. -/
theorem retryUnsentEvents_bound_witness :
    ((retryUnsentEvents .httpFailure 3 1 queuedAndStoredState).2.1 = 3 ∧
      (retryUnsentEvents .httpFailure 3 1 queuedAndStoredState).2.2 =
        List.replicate 3 1 ∧
      (∃ l2, (retryUnsentEvents .httpFailure 3 1 queuedAndStoredState).1.storage =
          .stored (.jArr l2) ∧ l2 ≠ [] ∧ List.Sublist [evA] l2) ∧
      countRetryWarn (retryUnsentEvents .httpFailure 3 1 queuedAndStoredState).1.log =
        countRetryWarn queuedAndStoredState.log + 1) ∧
    retryUnsentEvents .httpFailure 3 1 oneQueuedState = (oneQueuedState, 0, []) :=
  ⟨(retryUnsentEvents_bound .httpFailure (by decide) 3 1 queuedAndStoredState [evA]
      rfl rfl).1 (by simp),
   (retryUnsentEvents_bound .httpFailure (by decide) 3 1 oneQueuedState []
      rfl rfl).2 rfl⟩

section InvariantLemmas

/-- `trackEvent` preserves the queue invariant: it appends only payloads whose
`isTracked` field is absent. -/
theorem queueOk_trackEvent (name : JsArg) (data : List (String × String)) (s : PState)
    (h : QueueOk s) : QueueOk (trackEvent name data s) := by
  intro o ho
  unfold trackEvent at ho
  split at ho
  · exact h o ho
  · split at ho
    · exact h o ho
    · split at ho
      · exact h o ho
      · split at ho
        · exact h o ho
        · dsimp only at ho
          split at ho
          · exact h o ho
          · rcases List.mem_append.mp ho with h1 | h1
            · exact h o h1
            · simp only [List.mem_singleton] at h1
              subst h1
              simp

/-- The exception-path map writes only `isTracked: false`. -/
theorem queueOk_markUntracked (data queue : List Obj) (base : Nat)
    (h : ∀ o ∈ queue, o.ev.isTracked ≠ some true) :
    ∀ o ∈ (markUntracked data queue base).1, o.ev.isTracked ≠ some true := by
  induction queue generalizing base with
  | nil => intro o ho; simp [markUntracked] at ho
  | cons item rest ih =>
    intro o ho
    by_cases hc : data.any (fun d => d.oid == item.oid) = true
    · simp only [markUntracked, hc, if_true, List.mem_cons] at ho
      rcases ho with rfl | ho
      · simp
      · exact ih (base + 1) (fun x hx => h x (List.mem_cons_of_mem _ hx)) o ho
    · have hc' : data.any (fun d => d.oid == item.oid) = false := eq_false_of_ne_true hc
      simp only [markUntracked, hc', Bool.false_eq_true, if_false, List.mem_cons] at ho
      rcases ho with rfl | ho
      · exact h o (List.mem_cons_self _ _)
      · exact ih base (fun x hx => h x (List.mem_cons_of_mem _ hx)) o ho

/-- `sendStart` preserves the queue invariant. -/
theorem queueOk_sendStart (thr : Bool) (data : List Obj) (s : PState)
    (h : QueueOk s) : QueueOk (sendStart thr data s).1 := by
  unfold sendStart
  split
  · exact h
  · split
    · exact queueOk_markUntracked data s.analyticsQueue s.nextId h
    · exact h

/-- `resolveResponse` preserves the queue invariant. -/
theorem queueOk_resolveResponse (ok : Bool) (data : List Obj) (s : PState)
    (h : QueueOk s) : QueueOk (resolveResponse ok data s) := by
  unfold resolveResponse
  split
  · intro o ho
    exact h o (List.mem_of_mem_filter ho)
  · exact h

/-- `resolveError` preserves the queue invariant. -/
theorem queueOk_resolveError (data : List Obj) (s : PState)
    (h : QueueOk s) : QueueOk (resolveError data s) :=
  h

/-- `sendData` preserves the queue invariant. -/
theorem queueOk_sendData (o : SinkOutcome) (data : List Obj) (s : PState)
    (h : QueueOk s) : QueueOk (sendData o data s).1 := by
  cases o with
  | throwOnSend => exact queueOk_sendStart true data s h
  | success =>
    dsimp only [sendData]
    split
    · exact queueOk_resolveResponse true data _ (queueOk_sendStart false data s h)
    · exact queueOk_sendStart false data s h
  | httpFailure =>
    dsimp only [sendData]
    split
    · exact queueOk_resolveResponse false data _ (queueOk_sendStart false data s h)
    · exact queueOk_sendStart false data s h
  | netError =>
    dsimp only [sendData]
    split
    · exact queueOk_resolveError data _ (queueOk_sendStart false data s h)
    · exact queueOk_sendStart false data s h

/-- The retry loop preserves the queue invariant. -/
theorem queueOk_attemptSend (o : SinkOutcome) (interval : Nat) :
    ∀ (fuel : Nat) (remaining : List Event) (s : PState),
      QueueOk s → QueueOk (attemptSend o interval fuel remaining s).1 := by
  intro fuel
  induction fuel with
  | zero =>
    intro remaining s h
    unfold attemptSend
    split
    · exact h
    · exact h
  | succ fuel ih =>
    intro remaining s h
    unfold attemptSend
    split
    · exact h
    · dsimp only
      split
      · exact queueOk_sendData o _ _ h
      · exact ih _ _ (queueOk_sendData o _ _ h)

/-- `retryUnsentEvents` preserves the queue invariant. -/
theorem queueOk_retryUnsentEvents (o : SinkOutcome) (rc iv : Nat) (s : PState)
    (h : QueueOk s) : QueueOk (retryUnsentEvents o rc iv s).1 := by
  unfold retryUnsentEvents
  dsimp only
  split
  · exact h
  · exact queueOk_attemptSend o iv rc _ s h

/-- The flush tick preserves the queue invariant. -/
theorem queueOk_periodicSendTick (o : SinkOutcome) (s : PState)
    (h : QueueOk s) : QueueOk (periodicSendTick o s) := by
  unfold periodicSendTick
  split
  · exact h
  · dsimp only
    split
    · exact h
    · exact queueOk_sendData o _ _ h

/-- The idle-monitor entry points preserve the queue invariant. -/
theorem queueOk_handleUserActivity (t p : String) (s : PState)
    (h : QueueOk s) : QueueOk (handleUserActivity t p s) := by
  unfold handleUserActivity startIdleTimer
  split
  · exact queueOk_trackEvent _ _ _ h
  · exact h

/-- The idle timeout callback preserves the queue invariant. -/
theorem queueOk_idleTimerFire (t p : String) (s : PState)
    (h : QueueOk s) : QueueOk (idleTimerFire t p s) :=
  queueOk_trackEvent _ _ _ h

/-- Every single pipeline turn preserves the queue invariant. -/
theorem queueOk_step {s s' : PState} (hs : Step s s') (h : QueueOk s) : QueueOk s' := by
  cases hs with
  | track name data => exact queueOk_trackEvent name data s h
  | sendStartStep thr data => exact queueOk_sendStart thr data s h
  | resolveResp ok data => exact queueOk_resolveResponse ok data s h
  | resolveErr data => exact queueOk_resolveError data s h
  | tick o => exact queueOk_periodicSendTick o s h
  | retryStep o rc iv => exact queueOk_retryUnsentEvents o rc iv s h
  | activity t p => exact queueOk_handleUserActivity t p s h
  | timerFire t p => exact queueOk_idleTimerFire t p s h
  | register f => exact h
  | arm => exact h
  | setAuth k sid => exact h
  | reset => exact h

end InvariantLemmas

/-- Claim C10: in every reachable pipeline state no queued event carries
`isTracked: true` — the only writer of the flag, the `sendData` exception
path, sets it to `false` — so the Flush Scheduler's untransmitted selection
(the filter on `!event.isTracked`) always returns the entire queue, including
events of a batch whose send is still outstanding. -/
theorem reachable_queue_untracked :
    ∀ s : PState, Reachable s →
      QueueOk s ∧ selectUntransmitted s.analyticsQueue = s.analyticsQueue := by
  have hq : ∀ s : PState, Reachable s → QueueOk s := by
    intro s hr
    induction hr with
    | init st => intro o ho; simp [initState] at ho
    | step _ hstep ih => exact queueOk_step hstep ih
  intro s hr
  refine ⟨hq s hr, ?_⟩
  have h := hq s hr
  unfold selectUntransmitted
  rw [List.filter_eq_self]
  intro o ho
  have hne := h o ho
  simp only [trackedTruthy, Bool.not_eq_true', beq_eq_false_iff_ne, ne_eq]
  exact hne

/-- Witness for C10 at a concrete reachable state with a queued event. -/
theorem reachable_queue_untracked_witness :
    QueueOk (trackEvent (.str "a") [] authState) ∧
    selectUntransmitted (trackEvent (.str "a") [] authState).analyticsQueue =
      (trackEvent (.str "a") [] authState).analyticsQueue := by
  have hreach : Reachable (trackEvent (.str "a") [] authState) := by
    have h0 : Reachable { initState with storage := Storage.absent } :=
      Reachable.init Storage.absent
    have h1 : Reachable { initState with trackerFn := some obsOk } :=
      Reachable.step h0 (Step.register obsOk)
    have h2 : Reachable authState :=
      Reachable.step h1 (Step.setAuth "k" "sid")
    exact Reachable.step h2 (Step.track (.str "a") [])
  exact reachable_queue_untracked (trackEvent (.str "a") [] authState) hreach

end WebTracker
